import Mathlib

/-!
Verification of the RIMS (Restaurant Inventory Management System) core
business logic: a shallow embedding of the functions in
src/business-logic.ts and of the invariant-bearing route handlers in
src/server.ts, together with theorems settling the specification claims.

Modelling conventions:
  * database ids and quantitySold (INTEGER columns) are Int;
  * stored REAL columns (stock, prices, costs, quantities) are exact
    rationals; JavaScript arithmetic on finite doubles is embedded as exact
    rational arithmetic, which coincides with the source whenever no
    division by zero, overflow or rounding subtlety is involved;
  * for the claims that are specifically about division-by-zero behaviour,
    a dedicated JSNum type embeds the JavaScript number line including
    Infinity, -Infinity and NaN, with ECMAScript division rules;
  * the Prisma store is a record of entity lists; findUnique / findMany
    with include become explicit lookups over those lists.
-/

namespace RIMS

/-- Row of the Ingredient table (timestamps omitted, they carry no logic). -/
structure Ingredient where
  id : Int
  name : String
  unit : String
  currentStock : ℚ
  parLevel : ℚ
  unitCost : ℚ
deriving Repr, DecidableEq

/-- Row of the MenuItem table. -/
structure MenuItem where
  id : Int
  name : String
  basePrice : ℚ
deriving Repr, DecidableEq

/-- Row of the RecipeItem join table. -/
structure RecipeItem where
  menuItemId : Int
  ingredientId : Int
  quantityRequired : ℚ
  yieldFactor : ℚ
deriving Repr, DecidableEq

/-- Row of the Sale table (append-only ledger). -/
structure Sale where
  menuItemId : Int
  quantitySold : Int
deriving Repr, DecidableEq

/-- Row of the WasteLog table (append-only ledger). -/
structure WasteLog where
  ingredientId : Int
  quantity : ℚ
  reason : String
deriving Repr, DecidableEq

/-- The persistent store: one list per table. -/
structure DB where
  ingredients : List Ingredient
  menuItems : List MenuItem
  recipeItems : List RecipeItem
  sales : List Sale
  wasteLogs : List WasteLog
deriving Repr, DecidableEq

/-- Embedding of prisma.ingredient.findUnique on id. -/
def findIngredient (db : DB) (ingredientId : Int) : Option Ingredient :=
  db.ingredients.find? (fun i => decide (i.id = ingredientId))

/-- Embedding of prisma.menuItem.findUnique on id. -/
def findMenuItem (db : DB) (menuItemId : Int) : Option MenuItem :=
  db.menuItems.find? (fun m => decide (m.id = menuItemId))

/-- The recipe rows of a menu item, as loaded by include recipeItems. -/
def recipesOf (db : DB) (menuItemId : Int) : List RecipeItem :=
  db.recipeItems.filter (fun r => decide (r.menuItemId = menuItemId))

/-- Current stock of an ingredient, when it exists. -/
def stockOf (db : DB) (ingredientId : Int) : Option ℚ :=
  (findIngredient db ingredientId).map Ingredient.currentStock

/-- Per-row effect of prisma.ingredient.update with a currentStock decrement. -/
def decIngredient (ingredientId : Int) (amount : ℚ) (i : Ingredient) : Ingredient :=
  if i.id = ingredientId then { i with currentStock := i.currentStock - amount } else i

/-- Embedding of prisma.ingredient.update decrementing currentStock by amount. -/
def decrementStock (db : DB) (ingredientId : Int) (amount : ℚ) : DB :=
  { db with ingredients := db.ingredients.map (decIngredient ingredientId amount) }

/-! JavaScript numbers.  Finite values are idealized to exact rationals; the
special values are explicit.  Only the operations the claims need are
defined, following the ECMAScript rules for infinities, NaN and a zero
divisor (all zeroes are treated as +0, which matches every value this
program can store or compute in the situations the claims quantify over). -/

/-- A JavaScript number: a finite value, an infinity, or NaN. -/
inductive JSNum where
  | fin : ℚ → JSNum
  | posInf : JSNum
  | negInf : JSNum
  | nan : JSNum
deriving Repr, DecidableEq

namespace JSNum

/-- True exactly on finite values, as Number.isFinite. -/
def isFinite : JSNum → Bool
  | fin _ => true
  | _ => false

/-- JavaScript unary minus. -/
def neg : JSNum → JSNum
  | fin a => fin (-a)
  | posInf => negInf
  | negInf => posInf
  | nan => nan

/-- JavaScript addition. -/
def add : JSNum → JSNum → JSNum
  | nan, _ => nan
  | _, nan => nan
  | posInf, negInf => nan
  | negInf, posInf => nan
  | posInf, _ => posInf
  | _, posInf => posInf
  | negInf, _ => negInf
  | _, negInf => negInf
  | fin a, fin b => fin (a + b)

/-- JavaScript subtraction. -/
def sub (a b : JSNum) : JSNum := add a (neg b)

/-- JavaScript multiplication. -/
def mul : JSNum → JSNum → JSNum
  | nan, _ => nan
  | _, nan => nan
  | posInf, posInf => posInf
  | posInf, negInf => negInf
  | negInf, posInf => negInf
  | negInf, negInf => posInf
  | posInf, fin b => if b = 0 then nan else if 0 < b then posInf else negInf
  | negInf, fin b => if b = 0 then nan else if 0 < b then negInf else posInf
  | fin a, posInf => if a = 0 then nan else if 0 < a then posInf else negInf
  | fin a, negInf => if a = 0 then nan else if 0 < a then negInf else posInf
  | fin a, fin b => fin (a * b)

/-- JavaScript division, including the zero-divisor and infinity rules. -/
def div : JSNum → JSNum → JSNum
  | nan, _ => nan
  | _, nan => nan
  | posInf, posInf => nan
  | posInf, negInf => nan
  | negInf, posInf => nan
  | negInf, negInf => nan
  | posInf, fin b => if 0 ≤ b then posInf else negInf
  | negInf, fin b => if 0 ≤ b then negInf else posInf
  | fin _, posInf => fin 0
  | fin _, negInf => fin 0
  | fin a, fin b =>
      if b = 0 then (if a = 0 then nan else if 0 < a then posInf else negInf)
      else fin (a / b)

end JSNum

/-- Embedding of calculateActualDeduction from business-logic.ts: the bare
JavaScript division quantityRequired / yieldFactor, with no guard of any
kind on yieldFactor. -/
def calculateActualDeduction (quantityRequired yieldFactor : JSNum) : JSNum :=
  JSNum.div quantityRequired yieldFactor

/-- On finite inputs with a nonzero divisor, calculateActualDeduction is the
exact rational division; this justifies using plain rational division inside
the embeddings of the callers, under the data-model invariant
yieldFactor at least 1. -/
theorem calculateActualDeduction_fin (q y : ℚ) (hy : y ≠ 0) :
    calculateActualDeduction (JSNum.fin q) (JSNum.fin y) = JSNum.fin (q / y) := by
  simp [calculateActualDeduction, JSNum.div, hy]

/-- The actual per-unit deduction of a recipe row, as rational arithmetic
(the regime where the embedding is exact, per calculateActualDeduction_fin). -/
def actualDeduction (quantityRequired yieldFactor : ℚ) : ℚ :=
  quantityRequired / yieldFactor

/-- Total deduction a recipe row causes for a sale of n units. -/
def dedTotal (r : RecipeItem) (n : Int) : ℚ :=
  actualDeduction r.quantityRequired r.yieldFactor * (n : ℚ)

/-- A shortage descriptor collected by the validation pass of processSale.
The source pushes a formatted string naming the ingredient together with the
needed and available amounts; the record keeps those three fields. -/
structure Shortage where
  name : String
  needed : ℚ
  available : ℚ
deriving Repr, DecidableEq

/-- Result of processSale: the not-found failure, the insufficient-stock
failure carrying the full shortage list, or success.  The human-readable
message strings of the source carry no further data and are omitted. -/
inductive SaleResult where
  | notFound : SaleResult
  | insufficient : List Shortage → SaleResult
  | success : SaleResult
deriving Repr, DecidableEq

/-- The shortage check of processSale for one recipe row: a descriptor when
the loaded ingredient has less stock than the total deduction, else none.
The ingredient lookup mirrors the include that loaded recipe.ingredient;
referential integrity makes the none case unreachable on real stores. -/
def shortageOf (db : DB) (quantitySold : Int) (r : RecipeItem) : Option Shortage :=
  match findIngredient db r.ingredientId with
  | none => none
  | some ing =>
      if ing.currentStock < dedTotal r quantitySold then
        some ⟨ing.name, dedTotal r quantitySold, ing.currentStock⟩
      else none

/-- The mutation pass of processSale: fold the per-ingredient stock
decrements over the recipe rows, in order. -/
def deductAll (recipes : List RecipeItem) (quantitySold : Int) (db : DB) : DB :=
  recipes.foldl (fun acc r => decrementStock acc r.ingredientId (dedTotal r quantitySold)) db

/-- Embedding of processSale from business-logic.ts: load the menu item
(notFound when absent), collect every shortage over the full recipe, return
the insufficient failure with the whole list when any was found, otherwise
decrement every recipe ingredient and append one Sale row. -/
def processSale (db : DB) (menuItemId quantitySold : Int) : SaleResult × DB :=
  match findMenuItem db menuItemId with
  | none => (SaleResult.notFound, db)
  | some _ =>
      let shortages := (recipesOf db menuItemId).filterMap (shortageOf db quantitySold)
      if shortages = [] then
        let db2 := deductAll (recipesOf db menuItemId) quantitySold db
        (SaleResult.success, { db2 with sales := db2.sales ++ [⟨menuItemId, quantitySold⟩] })
      else (SaleResult.insufficient shortages, db)

/-- Stock status labels used by getInventorySummary. -/
inductive StockStatus where
  | OK : StockStatus
  | LOW : StockStatus
  | CRITICAL : StockStatus
deriving Repr, DecidableEq

/-- The per-ingredient status computation of getInventorySummary: CRITICAL
when the stock is exactly zero, else LOW when it is below the par level,
else OK (the branches are tested in this order). -/
def stockStatus (currentStock parLevel : ℚ) : StockStatus :=
  if currentStock = 0 then StockStatus.CRITICAL
  else if currentStock < parLevel then StockStatus.LOW
  else StockStatus.OK

/-- One row of the inventory summary. -/
structure InventoryRow where
  name : String
  currentStock : ℚ
  parLevel : ℚ
  unit : String
  status : StockStatus
deriving Repr, DecidableEq

/-- Embedding of getInventorySummary from business-logic.ts. -/
def getInventorySummary (db : DB) : List InventoryRow :=
  db.ingredients.map (fun ing =>
    { name := ing.name
      currentStock := ing.currentStock
      parLevel := ing.parLevel
      unit := ing.unit
      status := stockStatus ing.currentStock ing.parLevel })

/-- One proposed purchase order of generatePurchaseOrders. -/
structure PurchaseOrder where
  ingredientId : Int
  name : String
  currentStock : ℚ
  parLevel : ℚ
  orderQuantity : ℚ
  unit : String
  estimatedCost : ℚ
deriving Repr, DecidableEq

/-- Embedding of generatePurchaseOrders from business-logic.ts: one entry per
ingredient whose currentStock is at most 0, with orderQuantity set to
parLevel * 2 and estimatedCost to (parLevel * 2 - currentStock) * unitCost,
exactly as the source computes them. -/
def generatePurchaseOrders (db : DB) : List PurchaseOrder :=
  (db.ingredients.filter (fun i => decide (i.currentStock ≤ 0))).map (fun item =>
    { ingredientId := item.id
      name := item.name
      currentStock := item.currentStock
      parLevel := item.parLevel
      orderQuantity := item.parLevel * 2
      unit := item.unit
      estimatedCost := (item.parLevel * 2 - item.currentStock) * item.unitCost })

/-- The ingredient-cost accumulation of getMenuItemDetails: the reduce over
the recipe rows starting from 0, computed in JavaScript numbers so that the
division-by-zero behaviour of the source is preserved.  The ingredient
lookup mirrors the include that loaded recipe.ingredient. -/
def menuItemIngredientCost (db : DB) (menuItemId : Int) : JSNum :=
  (recipesOf db menuItemId).foldl (fun total r =>
    match findIngredient db r.ingredientId with
    | none => total
    | some ing =>
        JSNum.add total
          (JSNum.mul
            (calculateActualDeduction (JSNum.fin r.quantityRequired) (JSNum.fin r.yieldFactor))
            (JSNum.fin ing.unitCost)))
    (JSNum.fin 0)

/-- The profit-margin formula of getMenuItemDetails, in JavaScript numbers:
basePrice minus ingredientCost, divided by basePrice, times 100.  There is
no guard against basePrice = 0. -/
def profitMarginJS (basePrice ingredientCost : JSNum) : JSNum :=
  JSNum.mul (JSNum.div (JSNum.sub basePrice ingredientCost) basePrice) (JSNum.fin 100)

/-- The header of the getMenuItemDetails response (the recipes array adds no
further computation beyond fields already modelled elsewhere).  The source
formats ingredientCost and profitMargin with toFixed(2) for display; the
values here are the unformatted computation results. -/
structure MenuItemDetails where
  id : Int
  name : String
  basePrice : ℚ
  ingredientCost : JSNum
  profitMargin : JSNum
deriving Repr, DecidableEq

/-- Embedding of getMenuItemDetails from business-logic.ts: none when the
menu item does not exist, else the cost and margin computations. -/
def getMenuItemDetails (db : DB) (menuItemId : Int) : Option MenuItemDetails :=
  match findMenuItem db menuItemId with
  | none => none
  | some m =>
      some { id := m.id
             name := m.name
             basePrice := m.basePrice
             ingredientCost := menuItemIngredientCost db menuItemId
             profitMargin := profitMarginJS (JSNum.fin m.basePrice)
               (menuItemIngredientCost db menuItemId) }

/-- Embedding of toFixed(digits) followed by parseFloat: round to the given
number of decimal places, to nearest with ties away from zero on the
nonnegative values this program formats (Rat.round is floor of x + 1/2,
which matches the ECMAScript choice of the larger candidate on ties). -/
def roundTo (digits : ℕ) (x : ℚ) : ℚ :=
  ((round (x * (10 : ℚ) ^ digits) : ℤ) : ℚ) / (10 : ℚ) ^ digits

/-- One entry of the stock-deduction projection (GET /stock-deductions).
The actualDeduction and costPerUnit fields hold the 4-decimal-place rounded
figures exactly as the route stores them via parseFloat(toFixed(4)). -/
structure DeductionEntry where
  ingredient : String
  ingredientId : Int
  unit : String
  quantityRequired : ℚ
  yieldFactor : ℚ
  actualDeduction : ℚ
  currentStock : ℚ
  canMake : Int
  costPerUnit : ℚ
deriving Repr, DecidableEq

/-- The per-recipe entry built by the stock-deductions route.  canMake is
Math.floor(currentStock / actualDeduction); rational division makes it 0
when the exact actualDeduction is 0, a case the data-model invariant
yieldFactor at least 1 together with quantityRequired above 0 excludes. -/
def deductionEntry (r : RecipeItem) (ing : Ingredient) : DeductionEntry :=
  { ingredient := ing.name
    ingredientId := r.ingredientId
    unit := ing.unit
    quantityRequired := r.quantityRequired
    yieldFactor := r.yieldFactor
    actualDeduction := roundTo 4 (actualDeduction r.quantityRequired r.yieldFactor)
    currentStock := ing.currentStock
    canMake := ⌊ing.currentStock / actualDeduction r.quantityRequired r.yieldFactor⌋
    costPerUnit := roundTo 4 (actualDeduction r.quantityRequired r.yieldFactor * ing.unitCost) }

/-- The deduction entries of a menu item, one per recipe row whose
ingredient loads (always, under referential integrity). -/
def stockDeductionEntries (db : DB) (menuItemId : Int) : List DeductionEntry :=
  (recipesOf db menuItemId).filterMap (fun r =>
    (findIngredient db r.ingredientId).map (deductionEntry r))

/-- Response body of GET /stock-deductions/:menuItemId. -/
structure StockDeductionReport where
  menuItem : String
  menuItemId : Int
  basePrice : ℚ
  deductions : List DeductionEntry
  maxServings : Int
  totalIngredientCost : ℚ
deriving Repr, DecidableEq

/-- Embedding of the stock-deductions route: 404 (none) when the menu item
does not exist; otherwise the entries, maxServings as the minimum canMake
(0 with no recipes), and totalIngredientCost as the 2-decimal rounding of
the sum of the already-rounded costPerUnit fields, exactly as the source
reduces over deductions after building them. -/
def stockDeductions (db : DB) (menuItemId : Int) : Option StockDeductionReport :=
  match findMenuItem db menuItemId with
  | none => none
  | some m =>
      let deductions := stockDeductionEntries db menuItemId
      some { menuItem := m.name
             menuItemId := m.id
             basePrice := m.basePrice
             deductions := deductions
             maxServings :=
               match deductions.map DeductionEntry.canMake with
               | [] => 0
               | c :: cs => cs.foldl min c
             totalIngredientCost := roundTo 2 (deductions.map DeductionEntry.costPerUnit).sum }

/-- Response of POST /sales: 400 for a missing or non-numeric body field,
400 carrying the failure result when processSale fails, 200 carrying the
result on success. -/
inductive SalesResponse where
  | badRequest : SalesResponse
  | failure : SaleResult → SalesResponse
  | ok : SaleResult → SalesResponse
deriving Repr, DecidableEq

/-- Embedding of the POST /sales route handler: the only input validation is
the typeof number check on menuItemId and quantitySold (none on a body field
of the wrong type is the embedding of that check; the Sale schema types both
as INTEGER).  Any numeric value, positive or not, reaches processSale. -/
def postSales (db : DB) (menuItemId quantitySold : Option Int) : SalesResponse × DB :=
  match menuItemId, quantitySold with
  | some mid, some n =>
      match processSale db mid n with
      | (SaleResult.success, db2) => (SalesResponse.ok SaleResult.success, db2)
      | (r, db2) => (SalesResponse.failure r, db2)
  | _, _ => (SalesResponse.badRequest, db)

/-- Response of POST /waste-logs: 400 on the falsy-field guard, 500 when the
WasteLog insert fails (a nonexistent ingredientId violates the foreign key,
so nothing is written), 201 with the created row otherwise. -/
inductive WasteResponse where
  | badRequest : WasteResponse
  | serverError : WasteResponse
  | created : WasteLog → WasteResponse
deriving Repr, DecidableEq

/-- Embedding of the POST /waste-logs route handler: the guard rejects a
missing field, an ingredientId of 0 or a reason of "" (JavaScript
truthiness), then the WasteLog row is created and the ingredient stock is
decremented by quantity, with no sufficiency check. -/
def postWasteLog (db : DB) (ingredientId : Option Int) (quantity : Option ℚ)
    (reason : Option String) : WasteResponse × DB :=
  match ingredientId, quantity, reason with
  | some iid, some q, some rsn =>
      if iid = 0 ∨ rsn = "" then (WasteResponse.badRequest, db)
      else
        match findIngredient db iid with
        | none => (WasteResponse.serverError, db)
        | some _ =>
            (WasteResponse.created ⟨iid, q, rsn⟩,
              decrementStock { db with wasteLogs := db.wasteLogs ++ [⟨iid, q, rsn⟩] } iid q)
  | _, _, _ => (WasteResponse.badRequest, db)

/-! Helper lemmas about the store operations. -/

/-- The per-ingredient update preserves the id field. -/
theorem decIngredient_id (j : Int) (a : ℚ) (x : Ingredient) :
    (decIngredient j a x).id = x.id := by
  unfold decIngredient
  split <;> rfl

/-- Effect of a stock decrement on a lookup over a plain ingredient list. -/
theorem find?_map_decIngredient (l : List Ingredient) (j : Int) (a : ℚ) (i : Int) :
    ((l.map (decIngredient j a)).find? (fun x => decide (x.id = i))).map Ingredient.currentStock =
      ((l.find? (fun x => decide (x.id = i))).map Ingredient.currentStock).map
        (fun s => if i = j then s - a else s) := by
  induction l with
  | nil => rfl
  | cons x xs ih =>
      by_cases h : x.id = i
      · rw [List.map_cons, List.find?_cons_of_pos _ (by simp [decIngredient_id, h]),
          List.find?_cons_of_pos _ (by simp [h])]
        subst h
        by_cases hj : x.id = j <;> simp [decIngredient, hj]
      · rw [List.map_cons, List.find?_cons_of_neg _ (by simp [decIngredient_id, h]),
          List.find?_cons_of_neg _ (by simp [h])]
        exact ih

/-- Effect of decrementStock on stockOf: the targeted id loses the amount,
every other id is untouched. -/
theorem stockOf_decrementStock (db : DB) (j : Int) (a : ℚ) (i : Int) :
    stockOf (decrementStock db j a) i =
      (stockOf db i).map (fun s => if i = j then s - a else s) := by
  unfold stockOf findIngredient decrementStock
  exact find?_map_decIngredient db.ingredients j a i

/-- Combined deduction a list of recipe rows applies to one ingredient id. -/
def dedFor (recipes : List RecipeItem) (i : Int) (n : Int) : ℚ :=
  ((recipes.filter (fun r => decide (r.ingredientId = i))).map (fun r => dedTotal r n)).sum

/-- Effect of the mutation pass on stockOf: each ingredient loses exactly the
combined deduction of the recipe rows that reference it. -/
theorem stockOf_deductAll (recipes : List RecipeItem) (n : Int) (db : DB) (i : Int) :
    stockOf (deductAll recipes n db) i = (stockOf db i).map (fun s => s - dedFor recipes i n) := by
  induction recipes generalizing db with
  | nil =>
      simp [deductAll, dedFor]
  | cons r rs ih =>
      rw [show deductAll (r :: rs) n db
            = deductAll rs n (decrementStock db r.ingredientId (dedTotal r n)) from rfl]
      rw [ih, stockOf_decrementStock, Option.map_map]
      congr 1
      funext s
      by_cases h : r.ingredientId = i
      · subst h
        simp [dedFor, List.filter_cons]
        ring
      · have hne : i ≠ r.ingredientId := fun he => h he.symm
        simp [dedFor, List.filter_cons, h, hne]

/-- The mutation pass touches only the ingredients table. -/
theorem deductAll_sales (recipes : List RecipeItem) (n : Int) (db : DB) :
    (deductAll recipes n db).sales = db.sales := by
  induction recipes generalizing db with
  | nil => rfl
  | cons r rs ih => exact ih _

/-- With pairwise-distinct ingredient ids (the composite uniqueness
constraint on RecipeItem), the rows referencing the id of a member row are
exactly that row. -/
theorem filter_eq_singleton_of_nodup (recipes : List RecipeItem) (r : RecipeItem)
    (hnd : (recipes.map RecipeItem.ingredientId).Nodup) (hr : r ∈ recipes) :
    recipes.filter (fun x => decide (x.ingredientId = r.ingredientId)) = [r] := by
  induction recipes with
  | nil => cases hr
  | cons a l ih =>
      rw [List.map_cons, List.nodup_cons] at hnd
      rcases List.mem_cons.mp hr with rfl | hmem
      · rw [List.filter_cons, if_pos (by simp)]
        have : l.filter (fun x => decide (x.ingredientId = r.ingredientId)) = [] := by
          rw [List.filter_eq_nil_iff]
          intro x hx hdec
          exact hnd.1 (by
            rw [decide_eq_true_eq] at hdec
            exact hdec ▸ List.mem_map_of_mem RecipeItem.ingredientId hx)
        rw [this]
      · have hne : a.ingredientId ≠ r.ingredientId := fun he =>
          hnd.1 (he ▸ List.mem_map_of_mem RecipeItem.ingredientId hmem)
        rw [List.filter_cons, if_neg (by simp [hne])]
        exact ih hnd.2 hmem

/-- When no recipe row raises a shortage, processSale takes the success
branch: deduct everything, append the sale. -/
theorem processSale_of_no_shortage (db : DB) (menuItemId quantitySold : Int) (m : MenuItem)
    (hm : findMenuItem db menuItemId = some m)
    (hns : ∀ r ∈ recipesOf db menuItemId, shortageOf db quantitySold r = none) :
    processSale db menuItemId quantitySold =
      (SaleResult.success,
        { deductAll (recipesOf db menuItemId) quantitySold db with
          sales := (deductAll (recipesOf db menuItemId) quantitySold db).sales
            ++ [⟨menuItemId, quantitySold⟩] }) := by
  simp [processSale, hm, List.filterMap_eq_nil_iff.mpr hns]

/-- A recipe row whose loaded ingredient can cover the total deduction
raises no shortage. -/
theorem shortageOf_eq_none (db : DB) (quantitySold : Int) (r : RecipeItem)
    (h : ∀ ing ∈ findIngredient db r.ingredientId,
      dedTotal r quantitySold ≤ ing.currentStock) :
    shortageOf db quantitySold r = none := by
  unfold shortageOf
  cases hfi : findIngredient db r.ingredientId with
  | none => rfl
  | some ing => simp [not_lt.mpr (h ing (Option.mem_def.mpr hfi))]

/-! Claim C3.  The specification says the deduction calculator fails fast
with a DivisionByZero-class error on a zero or negative yieldFactor.  The
source function is the bare division: it signals nothing, returns Infinity
for a zero divisor and a negative value for a negative divisor. -/

/-- C3 counterexample: calculateActualDeduction(200, 0) returns Infinity and
calculateActualDeduction(200, -2) returns -100; the function is total, so no
DivisionByZero-class failure occurs on zero or negative yieldFactor,
contradicting the claim. -/
theorem c3_counterexample :
    calculateActualDeduction (JSNum.fin 200) (JSNum.fin 0) = JSNum.posInf ∧
    calculateActualDeduction (JSNum.fin 200) (JSNum.fin (-2)) = JSNum.fin (-100) := by
  constructor <;> norm_num [calculateActualDeduction, JSNum.div]

/-- C3 amended: for every positive quantityRequired, a yieldFactor of zero
makes calculateActualDeduction return Infinity, and a negative yieldFactor
makes it return the strictly negative finite quotient; no error is ever
raised (the function is the total JavaScript division). -/
theorem c3_amended (q y : ℚ) (hq : 0 < q) :
    calculateActualDeduction (JSNum.fin q) (JSNum.fin 0) = JSNum.posInf ∧
    (y < 0 → calculateActualDeduction (JSNum.fin q) (JSNum.fin y) = JSNum.fin (q / y) ∧
      q / y < 0) := by
  refine ⟨?_, fun hy => ⟨?_, div_neg_of_pos_of_neg hq hy⟩⟩
  · simp [calculateActualDeduction, JSNum.div, hq, hq.ne']
  · simp [calculateActualDeduction, JSNum.div, hy.ne]

/-- C3 amended, witnessed at quantityRequired 200 and yieldFactor -2. -/
theorem c3_amended_witness :
    (0 : ℚ) < 200 ∧
    (calculateActualDeduction (JSNum.fin 200) (JSNum.fin 0) = JSNum.posInf ∧
      ((-2 : ℚ) < 0 → calculateActualDeduction (JSNum.fin 200) (JSNum.fin (-2))
          = JSNum.fin (200 / (-2)) ∧ (200 : ℚ) / (-2) < 0)) :=
  ⟨by norm_num, c3_amended 200 (-2) (by norm_num)⟩

/-! Claim C5.  The specification says the proposed orderQuantity is
2 x parLevel - currentStock.  The source sets orderQuantity to
parLevel * 2 (its comment: order to 2x par level) while only estimatedCost
uses the 2 x parLevel - currentStock quantity. -/

/-- Concrete ingredient for the C5 counterexample: stock -10, par level 100. -/
def ingY : Ingredient := ⟨1, "Y", "g", -10, 100, 1⟩

/-- Store holding only ingY. -/
def dbY : DB := ⟨[ingY], [], [], [], []⟩

/-- C5 counterexample: for the ingredient with currentStock -10 and parLevel
100 the generated orderQuantity is 200, but 2 x parLevel - currentStock is
210, so the claimed formula for orderQuantity is false. -/
theorem c5_counterexample :
    (generatePurchaseOrders dbY).map PurchaseOrder.orderQuantity = [200] ∧
    2 * ingY.parLevel - ingY.currentStock = 210 ∧ (200 : ℚ) ≠ 210 := by
  refine ⟨?_, by norm_num [ingY], by norm_num⟩
  norm_num [generatePurchaseOrders, dbY, ingY]

/-- C5 amended: generatePurchaseOrders returns exactly one entry for every
ingredient with currentStock at most 0, whose orderQuantity is 2 x parLevel
(not reduced by the negative stock) and whose estimatedCost is
(2 x parLevel - currentStock) x unitCost. -/
theorem c5_amended (db : DB) :
    (generatePurchaseOrders db).map
        (fun po => (po.ingredientId, po.orderQuantity, po.estimatedCost)) =
      (db.ingredients.filter (fun i => decide (i.currentStock ≤ 0))).map
        (fun i => (i.id, 2 * i.parLevel, (2 * i.parLevel - i.currentStock) * i.unitCost)) := by
  unfold generatePurchaseOrders
  rw [List.map_map]
  refine List.map_congr_left (fun i _ => ?_)
  simp [Function.comp, mul_comm]

/-! Claim C6.  The inventory-summary classification: the source tests
currentStock = 0 first, so an ingredient with currentStock 0 is CRITICAL
even when currentStock is at least parLevel, contradicting the unrestricted
reading of the OK clause. -/

/-- C6 counterexample: at currentStock 0 and parLevel 0 the stock is at
least the par level, yet the status is CRITICAL, not the OK the claim
assigns to every currentStock at least parLevel. -/
theorem c6_counterexample :
    (0 : ℚ) ≤ 0 ∧ stockStatus 0 0 = StockStatus.CRITICAL ∧
      stockStatus 0 0 ≠ StockStatus.OK := by
  have h : stockStatus 0 0 = StockStatus.CRITICAL := by norm_num [stockStatus]
  exact ⟨le_refl 0, h, by rw [h]; decide⟩

/-- C6 amended: CRITICAL when currentStock = 0; LOW when
0 < currentStock < parLevel; OK when currentStock is at least parLevel and
nonzero (the CRITICAL test has priority at currentStock = 0). -/
theorem c6_amended (s p : ℚ) :
    (s = 0 → stockStatus s p = StockStatus.CRITICAL) ∧
    (0 < s → s < p → stockStatus s p = StockStatus.LOW) ∧
    (s ≠ 0 → p ≤ s → stockStatus s p = StockStatus.OK) := by
  refine ⟨fun h => ?_, fun h1 h2 => ?_, fun h1 h2 => ?_⟩
  · simp [stockStatus, h]
  · simp [stockStatus, h1.ne', h2]
  · simp [stockStatus, h1, not_lt.mpr h2]

/-- C6 amended, witnessed on the three regimes: stock 0 (any par), stock 1
below par 5, stock 7 at or above par 5. -/
theorem c6_amended_witness :
    stockStatus 0 5 = StockStatus.CRITICAL ∧ stockStatus 1 5 = StockStatus.LOW ∧
      stockStatus 7 5 = StockStatus.OK :=
  ⟨(c6_amended 0 5).1 rfl, (c6_amended 1 5).2.1 (by norm_num) (by norm_num),
    (c6_amended 7 5).2.2 (by norm_num) (by norm_num)⟩

/-! Claim C10.  getMenuItemDetails divides by basePrice with no guard; at
basePrice 0 the JavaScript result is Infinity, -Infinity or NaN, never a
finite number. -/

/-- With a zero base price the profit-margin formula never produces a finite
value, whatever the ingredient cost evaluated to. -/
theorem profitMarginJS_zero_base (c : JSNum) :
    (profitMarginJS (JSNum.fin 0) c).isFinite = false := by
  cases c with
  | fin q =>
      rcases lt_trichotomy q 0 with h | h | h
      · have h2 : (0 : ℚ) < -q := by linarith
        simp [profitMarginJS, JSNum.sub, JSNum.neg, JSNum.add, JSNum.div, JSNum.mul,
          JSNum.isFinite, h2.ne', h2]
      · simp [profitMarginJS, JSNum.sub, JSNum.neg, JSNum.add, JSNum.div, JSNum.mul,
          JSNum.isFinite, h]
      · have h2 : -q < 0 := by linarith
        simp [profitMarginJS, JSNum.sub, JSNum.neg, JSNum.add, JSNum.div, JSNum.mul,
          JSNum.isFinite, h2.ne, not_lt.mpr h2.le]
  | posInf =>
      simp [profitMarginJS, JSNum.sub, JSNum.neg, JSNum.add, JSNum.div, JSNum.mul, JSNum.isFinite]
  | negInf =>
      simp [profitMarginJS, JSNum.sub, JSNum.neg, JSNum.add, JSNum.div, JSNum.mul, JSNum.isFinite]
  | nan =>
      simp [profitMarginJS, JSNum.sub, JSNum.neg, JSNum.add, JSNum.div, JSNum.mul, JSNum.isFinite]

/-- C10: for every menu item the details endpoint returns, a basePrice of 0
makes the computed profitMargin a non-finite JavaScript number (NaN or an
infinity), because the formula divides by basePrice with no guard. -/
theorem c10_profit_margin_not_finite (db : DB) (menuItemId : Int) (d : MenuItemDetails)
    (hd : getMenuItemDetails db menuItemId = some d) (hz : d.basePrice = 0) :
    d.profitMargin.isFinite = false := by
  unfold getMenuItemDetails at hd
  cases hm : findMenuItem db menuItemId with
  | none => rw [hm] at hd; cases hd
  | some m =>
      rw [hm] at hd
      have hd2 := Option.some.inj hd
      subst hd2
      simp only at hz ⊢
      rw [hz]
      exact profitMarginJS_zero_base _

/-- Store for the C10 witness: one menu item with basePrice 0, no recipes. -/
def dbFree : DB := ⟨[], [⟨1, "Free", 0⟩], [], [], []⟩

/-- C10 witnessed on dbFree: the returned profitMargin is not finite. -/
theorem c10_witness :
    ∃ d, getMenuItemDetails dbFree 1 = some d ∧ d.basePrice = 0 ∧
      d.profitMargin.isFinite = false :=
  ⟨_, rfl, rfl, c10_profit_margin_not_finite dbFree 1 _ rfl rfl⟩

/-! Claim C9.  A menu item with no recipe rows: the shortage pass collects
nothing, the mutation pass folds over an empty list, so processSale always
succeeds, appends the sale, and leaves every ingredient untouched. -/

/-- C9: for every existing menu item with an empty recipe and every
quantitySold, processSale succeeds, appends exactly the one Sale row, and
the ingredients table (hence every currentStock) is unchanged. -/
theorem c9_no_recipes_succeeds (db : DB) (menuItemId quantitySold : Int) (m : MenuItem)
    (hm : findMenuItem db menuItemId = some m)
    (hrec : recipesOf db menuItemId = []) :
    processSale db menuItemId quantitySold =
      (SaleResult.success, { db with sales := db.sales ++ [⟨menuItemId, quantitySold⟩] }) ∧
    (processSale db menuItemId quantitySold).2.ingredients = db.ingredients := by
  have h : processSale db menuItemId quantitySold =
      (SaleResult.success, { db with sales := db.sales ++ [⟨menuItemId, quantitySold⟩] }) := by
    simp [processSale, hm, hrec, deductAll]
  exact ⟨h, by rw [h]⟩

/-- Store for the C9 witness: one ingredient, one menu item, no recipes. -/
def dbNoRec : DB := ⟨[⟨1, "Salt", "g", 100, 10, 1⟩], [⟨1, "Water", 1⟩], [], [], []⟩

/-- C9 witnessed on dbNoRec at quantitySold 3. -/
theorem c9_witness :
    processSale dbNoRec 1 3 =
      (SaleResult.success, { dbNoRec with sales := dbNoRec.sales ++ [⟨1, 3⟩] }) ∧
    (processSale dbNoRec 1 3).2.ingredients = dbNoRec.ingredients :=
  c9_no_recipes_succeeds dbNoRec 1 3 ⟨1, "Water", 1⟩ rfl rfl

/-! Claim C1.  When any recipe ingredient cannot cover its total deduction,
processSale aborts: the returned shortage list names every insufficient
ingredient, no stock changes, no Sale row is created. -/

/-- An insufficient recipe row produces its shortage descriptor. -/
theorem shortageOf_eq_some (db : DB) (quantitySold : Int) (r : RecipeItem) (ing : Ingredient)
    (hing : findIngredient db r.ingredientId = some ing)
    (hlt : ing.currentStock < r.quantityRequired / r.yieldFactor * (quantitySold : ℚ)) :
    shortageOf db quantitySold r =
      some ⟨ing.name, dedTotal r quantitySold, ing.currentStock⟩ := by
  have hlt2 : ing.currentStock < dedTotal r quantitySold := hlt
  simp [shortageOf, hing, hlt2]

/-- C1: for every existing menu item and quantity, if any recipe row has an
ingredient whose currentStock is below (quantityRequired / yieldFactor) x
quantitySold, processSale returns the insufficient-stock failure whose
shortage list names every such ingredient (not only the first), the store
is returned unchanged (no stock deduction), and no Sale row is appended.
The yieldFactor hypothesis records the data-model invariant (yieldFactor at
least 1.0) under which exact rational division embeds the JavaScript
division. -/
theorem c1_shortage_aborts_all (db : DB) (menuItemId quantitySold : Int) (m : MenuItem)
    (hm : findMenuItem db menuItemId = some m)
    (hy : ∀ r ∈ recipesOf db menuItemId, 0 < r.yieldFactor)
    (hshort : ∃ r ∈ recipesOf db menuItemId, ∃ ing ∈ findIngredient db r.ingredientId,
        ing.currentStock < r.quantityRequired / r.yieldFactor * (quantitySold : ℚ)) :
    ∃ ss, processSale db menuItemId quantitySold = (SaleResult.insufficient ss, db) ∧
      (∀ r ∈ recipesOf db menuItemId, ∀ ing ∈ findIngredient db r.ingredientId,
        ing.currentStock < r.quantityRequired / r.yieldFactor * (quantitySold : ℚ) →
          ing.name ∈ ss.map Shortage.name) := by
  obtain ⟨r0, hr0, ing0, hing0, hlt0⟩ := hshort
  rw [Option.mem_def] at hing0
  have hs0 := shortageOf_eq_some db quantitySold r0 ing0 hing0 hlt0
  have hne : (recipesOf db menuItemId).filterMap (shortageOf db quantitySold) ≠ [] :=
    List.ne_nil_of_mem (List.mem_filterMap.mpr ⟨r0, hr0, hs0⟩)
  refine ⟨(recipesOf db menuItemId).filterMap (shortageOf db quantitySold), ?_, ?_⟩
  · simp [processSale, hm, hne]
  · intro r hr ing hing hlt
    rw [Option.mem_def] at hing
    exact List.mem_map.mpr ⟨⟨ing.name, dedTotal r quantitySold, ing.currentStock⟩,
      List.mem_filterMap.mpr ⟨r, hr, shortageOf_eq_some db quantitySold r ing hing hlt⟩, rfl⟩

/-- Insufficient ingredient for the C1 witness (Scenario C shape): A covers
its deduction, B does not. -/
def dbTwo : DB :=
  ⟨[⟨1, "A", "g", 100, 10, 1⟩, ⟨2, "B", "g", 5, 10, 1⟩],
   [⟨1, "Combo", 12⟩],
   [⟨1, 1, 10, 1⟩, ⟨1, 2, 10, 1⟩], [], []⟩

/-- C1 witnessed on dbTwo at quantitySold 1: ingredient B (stock 5, needs
10) is insufficient, so the hypotheses hold and the theorem applies. -/
theorem c1_witness :
    (findMenuItem dbTwo 1 = some ⟨1, "Combo", 12⟩) ∧
    (∀ r ∈ recipesOf dbTwo 1, 0 < r.yieldFactor) ∧
    (∃ r ∈ recipesOf dbTwo 1, ∃ ing ∈ findIngredient dbTwo r.ingredientId,
      ing.currentStock < r.quantityRequired / r.yieldFactor * ((1 : Int) : ℚ)) ∧
    (∃ ss, processSale dbTwo 1 1 = (SaleResult.insufficient ss, dbTwo) ∧
      (∀ r ∈ recipesOf dbTwo 1, ∀ ing ∈ findIngredient dbTwo r.ingredientId,
        ing.currentStock < r.quantityRequired / r.yieldFactor * ((1 : Int) : ℚ) →
          ing.name ∈ ss.map Shortage.name)) := by
  have hy : ∀ r ∈ recipesOf dbTwo 1, 0 < r.yieldFactor := by
    intro r hr
    simp [recipesOf, dbTwo] at hr
    rcases hr with rfl | rfl <;> norm_num
  have hshort : ∃ r ∈ recipesOf dbTwo 1, ∃ ing ∈ findIngredient dbTwo r.ingredientId,
      ing.currentStock < r.quantityRequired / r.yieldFactor * ((1 : Int) : ℚ) := by
    refine ⟨⟨1, 2, 10, 1⟩, by simp [recipesOf, dbTwo], ⟨2, "B", "g", 5, 10, 1⟩, rfl, by norm_num⟩
  exact ⟨rfl, hy, hshort, c1_shortage_aborts_all dbTwo 1 1 ⟨1, "Combo", 12⟩ rfl hy hshort⟩

/-! Claim C2.  When every recipe ingredient covers its total deduction,
processSale succeeds, each recipe ingredient loses exactly
(quantityRequired / yieldFactor) x quantitySold, and exactly one Sale row is
appended. -/

/-- C2: for every existing menu item whose recipe rows reference pairwise
distinct ingredients (the composite uniqueness constraint) and whose every
loaded ingredient has currentStock at least
(quantityRequired / yieldFactor) x quantitySold, processSale succeeds, each
recipe ingredient ends with its stock reduced by exactly that amount, every
ingredient referenced by no recipe row keeps its stock, and the sales ledger
gains exactly the one new row. -/
theorem c2_sufficient_succeeds (db : DB) (menuItemId quantitySold : Int) (m : MenuItem)
    (hm : findMenuItem db menuItemId = some m)
    (hy : ∀ r ∈ recipesOf db menuItemId, 0 < r.yieldFactor)
    (hnd : ((recipesOf db menuItemId).map RecipeItem.ingredientId).Nodup)
    (hstock : ∀ r ∈ recipesOf db menuItemId, ∀ ing ∈ findIngredient db r.ingredientId,
        r.quantityRequired / r.yieldFactor * (quantitySold : ℚ) ≤ ing.currentStock) :
    ∃ db2, processSale db menuItemId quantitySold = (SaleResult.success, db2) ∧
      db2.sales = db.sales ++ [⟨menuItemId, quantitySold⟩] ∧
      (∀ r ∈ recipesOf db menuItemId, ∀ ing ∈ findIngredient db r.ingredientId,
        stockOf db2 r.ingredientId =
          some (ing.currentStock - r.quantityRequired / r.yieldFactor * (quantitySold : ℚ))) ∧
      (∀ i : Int, (∀ r ∈ recipesOf db menuItemId, r.ingredientId ≠ i) →
        stockOf db2 i = stockOf db i) := by
  have hns : ∀ r ∈ recipesOf db menuItemId, shortageOf db quantitySold r = none := by
    intro r hr
    exact shortageOf_eq_none db quantitySold r (fun ing hing => hstock r hr ing hing)
  have hps := processSale_of_no_shortage db menuItemId quantitySold m hm hns
  refine ⟨_, hps, ?_, ?_, ?_⟩
  · simp [deductAll_sales]
  · intro r hr ing hing
    rw [Option.mem_def] at hing
    have hso : stockOf db r.ingredientId = some ing.currentStock := by
      simp [stockOf, hing]
    have : stockOf (deductAll (recipesOf db menuItemId) quantitySold db) r.ingredientId =
        some (ing.currentStock - dedFor (recipesOf db menuItemId) r.ingredientId quantitySold) := by
      rw [stockOf_deductAll, hso]
      rfl
    have hsingle : dedFor (recipesOf db menuItemId) r.ingredientId quantitySold =
        dedTotal r quantitySold := by
      unfold dedFor
      rw [filter_eq_singleton_of_nodup _ r hnd hr]
      simp
    rw [show stockOf { deductAll (recipesOf db menuItemId) quantitySold db with
          sales := (deductAll (recipesOf db menuItemId) quantitySold db).sales
            ++ [⟨menuItemId, quantitySold⟩] } r.ingredientId =
        stockOf (deductAll (recipesOf db menuItemId) quantitySold db) r.ingredientId from rfl]
    rw [this, hsingle]
    rfl
  · intro i hi
    rw [show stockOf { deductAll (recipesOf db menuItemId) quantitySold db with
          sales := (deductAll (recipesOf db menuItemId) quantitySold db).sales
            ++ [⟨menuItemId, quantitySold⟩] } i =
        stockOf (deductAll (recipesOf db menuItemId) quantitySold db) i from rfl]
    rw [stockOf_deductAll]
    have : dedFor (recipesOf db menuItemId) i quantitySold = 0 := by
      unfold dedFor
      rw [List.filter_eq_nil_iff.mpr (fun r hr => by simp [hi r hr])]
      rfl
    rw [this]
    cases stockOf db i <;> simp

/-- Scenario A ingredient: Beef, stock 5000, par 1000, cost 0.08 per gram. -/
def beefA : Ingredient := ⟨1, "Beef", "grams", 5000, 1000, 8/100⟩

/-- Scenario A menu item: Burger. -/
def burgerA : MenuItem := ⟨1, "Burger", 899/100⟩

/-- Scenario A recipe row: 200 grams of Beef at yieldFactor 1.1. -/
def recipeA : RecipeItem := ⟨1, 1, 200, 11/10⟩

/-- Scenario A store. -/
def dbA : DB := ⟨[beefA], [burgerA], [recipeA], [], []⟩

/-- C2 witnessed on Scenario A of the specification: selling 5 Burgers
succeeds and Beef drops by (200 / 1.1) x 5. -/
theorem c2_witness :
    (findMenuItem dbA 1 = some burgerA) ∧
    (∀ r ∈ recipesOf dbA 1, 0 < r.yieldFactor) ∧
    (((recipesOf dbA 1).map RecipeItem.ingredientId).Nodup) ∧
    (∀ r ∈ recipesOf dbA 1, ∀ ing ∈ findIngredient dbA r.ingredientId,
      r.quantityRequired / r.yieldFactor * ((5 : Int) : ℚ) ≤ ing.currentStock) ∧
    (∃ db2, processSale dbA 1 5 = (SaleResult.success, db2) ∧
      db2.sales = dbA.sales ++ [⟨1, 5⟩] ∧
      (∀ r ∈ recipesOf dbA 1, ∀ ing ∈ findIngredient dbA r.ingredientId,
        stockOf db2 r.ingredientId =
          some (ing.currentStock - r.quantityRequired / r.yieldFactor * ((5 : Int) : ℚ))) ∧
      (∀ i : Int, (∀ r ∈ recipesOf dbA 1, r.ingredientId ≠ i) →
        stockOf db2 i = stockOf dbA i)) := by
  have hy : ∀ r ∈ recipesOf dbA 1, 0 < r.yieldFactor := by
    intro r hr
    simp [recipesOf, dbA, recipeA] at hr
    subst hr
    norm_num [recipeA]
  have hnd : ((recipesOf dbA 1).map RecipeItem.ingredientId).Nodup := by
    simp [recipesOf, dbA, recipeA]
  have hstock : ∀ r ∈ recipesOf dbA 1, ∀ ing ∈ findIngredient dbA r.ingredientId,
      r.quantityRequired / r.yieldFactor * ((5 : Int) : ℚ) ≤ ing.currentStock := by
    intro r hr ing hing
    simp [recipesOf, dbA, recipeA] at hr
    subst hr
    rw [Option.mem_def] at hing
    have : findIngredient dbA (1 : Int) = some beefA := rfl
    rw [show (⟨1, 1, 200, 11/10⟩ : RecipeItem).ingredientId = (1 : Int) from rfl, this] at hing
    cases hing
    norm_num [beefA]
  exact ⟨rfl, hy, hnd, hstock, c2_sufficient_succeeds dbA 1 5 burgerA rfl hy hnd hstock⟩

/-! Claim C7.  The stock-deduction projection: the source builds each entry
with costPerUnit already rounded to 4 decimal places and then sums those
rounded figures before the final 2-decimal rounding, so totalIngredientCost
is not computed at full internal precision. -/

/-- Modelled from the spec wording, for comparison with the source (claim
C7): totalIngredientCost computed at full internal precision — the exact
per-ingredient cost-per-unit figures are summed unrounded, and the
2-decimal-place rounding is applied only to the final sum for display. -/
def specTotalIngredientCost (db : DB) (menuItemId : Int) : ℚ :=
  roundTo 2 (((recipesOf db menuItemId).filterMap (fun r =>
    (findIngredient db r.ingredientId).map (fun ing =>
      actualDeduction r.quantityRequired r.yieldFactor * ing.unitCost))).sum)

/-- Store for the C7 counterexample: two recipe rows with exact
cost-per-unit 0.00246 each.  Rounded to 4 places each becomes 0.0025, whose
sum 0.005 rounds at 2 places to 0.01; the full-precision sum 0.00492 rounds
to 0.00. -/
def dbRound : DB :=
  ⟨[⟨1, "A", "g", 100, 10, 1⟩, ⟨2, "B", "g", 100, 10, 1⟩],
   [⟨1, "M", 10⟩],
   [⟨1, 1, 123/50000, 1⟩, ⟨1, 2, 123/50000, 1⟩], [], []⟩

/-- C7 counterexample: on dbRound the route reports totalIngredientCost
0.01 while the full-precision computation the claim describes yields 0.00,
so rounding is not applied only for display. -/
theorem c7_counterexample :
    (stockDeductions dbRound 1).map StockDeductionReport.totalIngredientCost = some (1/100) ∧
    specTotalIngredientCost dbRound 1 = 0 ∧ ((1 : ℚ)/100 ≠ 0) := by
  refine ⟨?_, ?_, by norm_num⟩
  · norm_num [stockDeductions, stockDeductionEntries, recipesOf, findIngredient, deductionEntry,
      actualDeduction, roundTo, round_eq, dbRound, findMenuItem, List.filterMap_cons,
      List.find?]
  · norm_num [specTotalIngredientCost, recipesOf, findIngredient, actualDeduction, roundTo,
      round_eq, dbRound, List.filterMap_cons, List.find?]

/-- C7 amended: totalIngredientCost is the 2-decimal rounding of the sum of
the per-ingredient costPerUnit figures after each has itself been rounded
to 4 decimal places (deduction figures and costPerUnit use 4 places, the
final total 2); the sum is taken over the already-rounded figures, not at
full internal precision. -/
theorem c7_amended (db : DB) (menuItemId : Int) (m : MenuItem)
    (hm : findMenuItem db menuItemId = some m) :
    ∃ rep, stockDeductions db menuItemId = some rep ∧
      rep.totalIngredientCost =
        roundTo 2 ((rep.deductions.map DeductionEntry.costPerUnit).sum) ∧
      (∀ r ∈ recipesOf db menuItemId, ∀ ing ∈ findIngredient db r.ingredientId,
        deductionEntry r ing ∈ rep.deductions ∧
        (deductionEntry r ing).costPerUnit =
          roundTo 4 (actualDeduction r.quantityRequired r.yieldFactor * ing.unitCost) ∧
        (deductionEntry r ing).actualDeduction =
          roundTo 4 (actualDeduction r.quantityRequired r.yieldFactor)) := by
  refine ⟨{ menuItem := m.name
            menuItemId := m.id
            basePrice := m.basePrice
            deductions := stockDeductionEntries db menuItemId
            maxServings :=
              match (stockDeductionEntries db menuItemId).map DeductionEntry.canMake with
              | [] => 0
              | c :: cs => cs.foldl min c
            totalIngredientCost :=
              roundTo 2 ((stockDeductionEntries db menuItemId).map
                DeductionEntry.costPerUnit).sum }, ?_, rfl, ?_⟩
  · simp [stockDeductions, hm]
  · intro r hr ing hing
    rw [Option.mem_def] at hing
    exact ⟨List.mem_filterMap.mpr ⟨r, hr, by rw [hing]; rfl⟩, rfl, rfl⟩

/-- C7 amended, witnessed on dbRound. -/
theorem c7_amended_witness :
    (findMenuItem dbRound 1 = some ⟨1, "M", 10⟩) ∧
    (∃ rep, stockDeductions dbRound 1 = some rep ∧
      rep.totalIngredientCost =
        roundTo 2 ((rep.deductions.map DeductionEntry.costPerUnit).sum) ∧
      (∀ r ∈ recipesOf dbRound 1, ∀ ing ∈ findIngredient dbRound r.ingredientId,
        deductionEntry r ing ∈ rep.deductions ∧
        (deductionEntry r ing).costPerUnit =
          roundTo 4 (actualDeduction r.quantityRequired r.yieldFactor * ing.unitCost) ∧
        (deductionEntry r ing).actualDeduction =
          roundTo 4 (actualDeduction r.quantityRequired r.yieldFactor))) :=
  ⟨rfl, c7_amended dbRound 1 ⟨1, "M", 10⟩ rfl⟩

/-! Claim C4.  Neither the POST /sales handler nor processSale checks that
quantitySold is positive: the handler only checks typeof number, and a
negative quantity then passes the shortage check (the required totals are
non-positive), increases stock and records a Sale. -/

/-- Store for the C4 counterexample: one menu item needing 10 g of the
ingredient per unit, ingredient stock 100. -/
def dbNeg : DB :=
  ⟨[⟨1, "X", "g", 100, 10, 1⟩], [⟨1, "M", 5⟩], [⟨1, 1, 10, 1⟩], [], []⟩

/-- The store dbNeg after POST /sales with quantitySold -1: stock rose to
110 and a Sale row with quantitySold -1 was recorded. -/
def dbNegAfter : DB :=
  ⟨[⟨1, "X", "g", 110, 10, 1⟩], [⟨1, "M", 5⟩], [⟨1, 1, 10, 1⟩], [⟨1, -1⟩], []⟩

/-- C4 counterexample: POST /sales with the non-positive quantitySold -1 is
not rejected: it succeeds, mutates the ingredient stock (100 to 110) and
creates a Sale row, contradicting the claimed validation rejection. -/
theorem c4_counterexample :
    postSales dbNeg (some 1) (some (-1)) = (SalesResponse.ok SaleResult.success, dbNegAfter) ∧
    stockOf dbNegAfter 1 = some 110 ∧ dbNegAfter.sales = [⟨1, -1⟩] := by
  have hps : processSale dbNeg 1 (-1) = (SaleResult.success, dbNegAfter) := by
    norm_num [processSale, findMenuItem, recipesOf, shortageOf, findIngredient, dedTotal,
      actualDeduction, deductAll, decrementStock, decIngredient, dbNeg, dbNegAfter]
  refine ⟨?_, by norm_num [stockOf, findIngredient, dbNegAfter], rfl⟩
  simp [postSales, hps]

/-- C4 amended: the sales endpoint rejects only a missing or non-numeric
body field; a non-positive numeric quantitySold reaches processSale, and
whenever the menu item exists, every recipe row has nonnegative
quantityRequired and positive yieldFactor, and every loaded recipe
ingredient has nonnegative stock, the sale is accepted: the store is
mutated by the non-positive deductions and a Sale row carrying the
non-positive quantity is appended. -/
theorem c4_amended (db : DB) (menuItemId quantitySold : Int) (m : MenuItem)
    (hn : quantitySold ≤ 0)
    (hm : findMenuItem db menuItemId = some m)
    (hq : ∀ r ∈ recipesOf db menuItemId, 0 ≤ r.quantityRequired ∧ 0 < r.yieldFactor)
    (hstk : ∀ r ∈ recipesOf db menuItemId, ∀ ing ∈ findIngredient db r.ingredientId,
        0 ≤ ing.currentStock) :
    ∃ db2, postSales db (some menuItemId) (some quantitySold) =
        (SalesResponse.ok SaleResult.success, db2) ∧
      db2.sales = db.sales ++ [⟨menuItemId, quantitySold⟩] := by
  have hns : ∀ r ∈ recipesOf db menuItemId, shortageOf db quantitySold r = none := by
    intro r hr
    refine shortageOf_eq_none db quantitySold r (fun ing hing => ?_)
    have hded : dedTotal r quantitySold ≤ 0 := by
      have h1 : 0 ≤ r.quantityRequired / r.yieldFactor :=
        div_nonneg (hq r hr).1 (hq r hr).2.le
      have h2 : ((quantitySold : ℚ)) ≤ 0 := by exact_mod_cast hn
      exact mul_nonpos_of_nonneg_of_nonpos h1 h2
    exact hded.trans (hstk r hr ing hing)
  have hps := processSale_of_no_shortage db menuItemId quantitySold m hm hns
  refine ⟨{ deductAll (recipesOf db menuItemId) quantitySold db with
      sales := (deductAll (recipesOf db menuItemId) quantitySold db).sales
        ++ [⟨menuItemId, quantitySold⟩] }, ?_, ?_⟩
  · simp [postSales, hps]
  · simp [deductAll_sales]

/-- C4 amended, witnessed on dbNeg at quantitySold -1. -/
theorem c4_amended_witness :
    ((-1 : Int) ≤ 0) ∧ (findMenuItem dbNeg 1 = some ⟨1, "M", 5⟩) ∧
    (∃ db2, postSales dbNeg (some 1) (some (-1)) =
        (SalesResponse.ok SaleResult.success, db2) ∧
      db2.sales = dbNeg.sales ++ [⟨1, -1⟩]) := by
  have hq : ∀ r ∈ recipesOf dbNeg 1, 0 ≤ r.quantityRequired ∧ 0 < r.yieldFactor := by
    intro r hr
    simp [recipesOf, dbNeg] at hr
    subst hr
    norm_num
  have hstk : ∀ r ∈ recipesOf dbNeg 1, ∀ ing ∈ findIngredient dbNeg r.ingredientId,
      0 ≤ ing.currentStock := by
    intro r hr ing hing
    simp [recipesOf, dbNeg] at hr
    subst hr
    rw [Option.mem_def] at hing
    rw [show findIngredient dbNeg (⟨1, 1, 10, 1⟩ : RecipeItem).ingredientId
        = some ⟨1, "X", "g", 100, 10, 1⟩ from rfl] at hing
    cases hing
    norm_num
  exact ⟨by norm_num, rfl, c4_amended dbNeg 1 (-1) ⟨1, "M", 5⟩ (by norm_num) rfl hq hstk⟩

/-! Claim C8.  The waste endpoint: one WasteLog row is created, then the
ingredient stock is decremented by the quantity, with no sufficiency
check. -/

/-- C8: for every existing ingredient (with a truthy id, as the handler
guard requires) and non-empty reason, POST /waste-logs appends exactly one
WasteLog row with the given quantity and reason and decrements that
ingredient's currentStock by exactly the quantity — no sufficiency check is
involved, the hypotheses say nothing about stock covering the quantity. -/
theorem c8_waste_log_decrements (db : DB) (ingredientId : Int) (quantity : ℚ)
    (reason : String) (ing : Ingredient)
    (hing : findIngredient db ingredientId = some ing)
    (hid : ingredientId ≠ 0) (hrs : reason ≠ "") :
    ∃ db2, postWasteLog db (some ingredientId) (some quantity) (some reason) =
        (WasteResponse.created ⟨ingredientId, quantity, reason⟩, db2) ∧
      db2.wasteLogs = db.wasteLogs ++ [⟨ingredientId, quantity, reason⟩] ∧
      stockOf db2 ingredientId = some (ing.currentStock - quantity) := by
  refine ⟨decrementStock
      { db with wasteLogs := db.wasteLogs ++ [⟨ingredientId, quantity, reason⟩] }
      ingredientId quantity, ?_, rfl, ?_⟩
  · simp [postWasteLog, hid, hrs, hing]
  · rw [stockOf_decrementStock]
    have h0 : findIngredient
        { db with wasteLogs := db.wasteLogs ++ [⟨ingredientId, quantity, reason⟩] }
        ingredientId = some ing := hing
    have h1 : stockOf
        { db with wasteLogs := db.wasteLogs ++ [⟨ingredientId, quantity, reason⟩] }
        ingredientId = some ing.currentStock := by
      simp [stockOf, h0]
    rw [h1]
    simp

/-- Store for the C8 witness (Scenario D): ingredient stock 200. -/
def dbWaste : DB := ⟨[⟨7, "Z", "g", 200, 10, 1⟩], [], [], [], []⟩

/-- C8 witnessed on Scenario D: logging 50 Spilled leaves stock 150 and
exactly one new WasteLog row. -/
theorem c8_witness :
    (findIngredient dbWaste 7 = some ⟨7, "Z", "g", 200, 10, 1⟩) ∧
    (∃ db2, postWasteLog dbWaste (some 7) (some 50) (some "Spilled") =
        (WasteResponse.created ⟨7, 50, "Spilled"⟩, db2) ∧
      db2.wasteLogs = dbWaste.wasteLogs ++ [⟨7, 50, "Spilled"⟩] ∧
      stockOf db2 7 = some ((200 : ℚ) - 50)) ∧ ((200 : ℚ) - 50 = 150) :=
  ⟨rfl, c8_waste_log_decrements dbWaste 7 50 "Spilled" ⟨7, "Z", "g", 200, 10, 1⟩ rfl
      (by norm_num) (by simp), by norm_num⟩

end RIMS
